import Mathlib

/-!
Verification of the Xener HTTP server core against its specification.

The Rust sources are shallowly embedded: byte streams become `List Char`
(request/response bodies are byte sequences; the wire traffic relevant to the
claims is ASCII, so one character models one byte), the `HashMap` of headers
becomes an association list with replace-on-insert semantics, machine integers
become `Nat` with explicit bounds where Rust's parsing enforces them, and
fallible operations return `Except`.  Effectful socket operations are modelled
by passing their outcomes in explicitly.  Time-valued fields (`Instant`,
`Duration`, the cumulative statistics) are outside the claims and are omitted
from the connection state.
-/

set_option maxRecDepth 8000

namespace Xener

/-- Association-list model of `std::collections::HashMap<String, String>`,
observed only through insert and lookup. -/
abbrev Headers := List (String × String)

/-- `HashMap::insert`: replace the value of an existing key, else add the
binding. -/
def hmInsert : Headers → String → String → Headers
  | [], k, v => [(k, v)]
  | p :: t, k, v => if p.1 == k then (k, v) :: t else p :: hmInsert t k v

/-- `HashMap::get`: exact (case-sensitive) key lookup. -/
def hmGet : Headers → String → Option String
  | [], _ => none
  | p :: t, k => if p.1 == k then some p.2 else hmGet t k

/-- ASCII lowercasing, modelling `str::to_lowercase` on the ASCII inputs the
claims concern. -/
def strLower (s : String) : String := String.mk (s.data.map Char.toLower)

/-- ASCII uppercasing, modelling `str::to_uppercase`. -/
def strUpper (s : String) : String := String.mk (s.data.map Char.toUpper)

/-- Does `sub` occur at the head of `l`? -/
def charsLead : List Char → List Char → Bool
  | [], _ => true
  | _ :: _, [] => false
  | a :: s, b :: t => a == b && charsLead s t

/-- Does `sub` occur anywhere in `l`?  (Substring search for
`str::contains`.) -/
def charsHasSub (sub : List Char) : List Char → Bool
  | [] => sub.isEmpty
  | c :: t => charsLead sub (c :: t) || charsHasSub sub t

/-- `str::contains(sub)` on strings. -/
def strContains (s sub : String) : Bool := charsHasSub sub.data s.data

/-- `str::ends_with(suffix)`. -/
def strEnds (s suffix : String) : Bool :=
  charsLead suffix.data.reverse s.data.reverse

/-- `str::starts_with(p)`. -/
def strStarts (s p : String) : Bool := charsLead p.data s.data

/-- `str::split(',')`: pieces between commas, empties kept. -/
def splitOnComma (s : String) : List String :=
  (s.data.foldr
    (fun c acc =>
      if c = ',' then [] :: acc
      else
        match acc with
        | [] => [[c]]
        | w :: ws => (c :: w) :: ws)
    [[]]).map String.mk

/-- `str::trim` (ASCII whitespace). -/
def trimL (l : List Char) : List Char :=
  ((l.dropWhile Char.isWhitespace).reverse.dropWhile Char.isWhitespace).reverse

/-- `str::trim` on strings. -/
def strTrim (s : String) : String := String.mk (trimL s.data)

/-- `str::get(n..)` / `String::drop` for stripping a checked literal head. -/
def strDrop (s : String) (n : Nat) : String := String.mk (s.data.drop n)

/-- `str::split_whitespace`: maximal runs of non-whitespace characters. -/
def words (l : List Char) : List (List Char) :=
  (l.foldr
    (fun c acc =>
      if c.isWhitespace then [] :: acc
      else
        match acc with
        | [] => [[c]]
        | w :: ws => (c :: w) :: ws)
    []).filter (fun w => !w.isEmpty)

/-- `BufRead::read_line`: the line up to and including the first `'\n'`
(or up to end of input), and the remaining input. -/
def readLine : List Char → List Char × List Char
  | [] => ([], [])
  | c :: t =>
    if c = '\n' then ([c], t)
    else
      let p := readLine t
      (c :: p.1, p.2)

/-- `str::find(':')` followed by `split_at`: the part before the first colon
and the part after it, or `none` when the line holds no colon. -/
def splitAtColon : List Char → Option (List Char × List Char)
  | [] => none
  | c :: t =>
    if c = ':' then some ([], t)
    else
      match splitAtColon t with
      | some p => some (c :: p.1, p.2)
      | none => none

/-- `u64`/`usize` decimal parsing (`str::parse`): optional leading `'+'`,
then one or more ASCII digits, value below `2^64`. -/
def parseNat64 (s : String) : Option Nat :=
  let l := match s.data with
    | '+' :: t => t
    | l => l
  if l.isEmpty then none
  else if l.all Char.isDigit then
    let n := l.foldl (fun a c => a * 10 + (c.toNat - 48)) 0
    if n < 18446744073709551616 then some n else none
  else none

/-- `src/http/mod.rs`: request methods. -/
inductive Method where
  | GET | POST | PUT | DELETE | HEAD | OPTIONS | CONNECT | TRACE | PATCH
  | UNKNOWN
deriving DecidableEq, Repr

/-- `impl From<&str> for Method`: match on the uppercased token. -/
def methodFrom (s : String) : Method :=
  match strUpper s with
  | "GET" => .GET
  | "POST" => .POST
  | "PUT" => .PUT
  | "DELETE" => .DELETE
  | "HEAD" => .HEAD
  | "OPTIONS" => .OPTIONS
  | "CONNECT" => .CONNECT
  | "TRACE" => .TRACE
  | "PATCH" => .PATCH
  | _ => .UNKNOWN

/-- `src/http/mod.rs`: the `Version` enum.  The source declares exactly these
three variants; there is no `HTTP1_0` variant (this matters for claim C3). -/
inductive Version where
  | HTTP1_1 | HTTP2_0 | UNKNOWN
deriving DecidableEq, Repr

/-- `impl From<&str> for Version`: only `"HTTP/1.1"` and `"HTTP/2.0"` are
distinguished; everything else (including `"HTTP/1.0"`) is `UNKNOWN`. -/
def versionFrom (s : String) : Version :=
  match s with
  | "HTTP/1.1" => .HTTP1_1
  | "HTTP/2.0" => .HTTP2_0
  | _ => .UNKNOWN

/-- `impl Into<String> for Version`: every variant other than `HTTP2_0`
renders as `"HTTP/1.1"`. -/
def versionToString : Version → String
  | .HTTP1_1 => "HTTP/1.1"
  | .HTTP2_0 => "HTTP/2.0"
  | _ => "HTTP/1.1"

/-- `src/http/mod.rs`: the `StatusCode` enum (22 variants). -/
inductive StatusCode where
  | Ok | Created | Accepted | NoContent
  | MovedPermanently | Found | TemporaryRedirect | PermanentRedirect
  | BadRequest | Unauthorized | Forbidden | NotFound | MethodNotAllowed
  | ContentTooLarge | UriTooLong | TooManyRequests
  | RequestHeaderFieldsTooLarge
  | InternalServerError | NotImplemented | BadGateway | ServiceUnavailable
  | GatewayTimeout
deriving DecidableEq, Repr

/-- `StatusCode::code`: the numeric discriminant (`*self as u16`). -/
def StatusCode.code : StatusCode → Nat
  | .Ok => 200
  | .Created => 201
  | .Accepted => 202
  | .NoContent => 204
  | .MovedPermanently => 301
  | .Found => 302
  | .TemporaryRedirect => 307
  | .PermanentRedirect => 308
  | .BadRequest => 400
  | .Unauthorized => 401
  | .Forbidden => 403
  | .NotFound => 404
  | .MethodNotAllowed => 405
  | .ContentTooLarge => 413
  | .UriTooLong => 414
  | .TooManyRequests => 429
  | .RequestHeaderFieldsTooLarge => 431
  | .InternalServerError => 500
  | .NotImplemented => 501
  | .BadGateway => 502
  | .ServiceUnavailable => 503
  | .GatewayTimeout => 504

/-- `StatusCode::reason_phrase`, transcribed verbatim from the source —
including the `"NotFound"` string returned for the 404 variant. -/
def StatusCode.reason_phrase : StatusCode → String
  | .Ok => "OK"
  | .Created => "Created"
  | .Accepted => "Accepted"
  | .NoContent => "No Content"
  | .MovedPermanently => "Moved Permanently"
  | .Found => "Found"
  | .TemporaryRedirect => "Temporary Redirect"
  | .PermanentRedirect => "Permanent Redirect"
  | .BadRequest => "Bad Request"
  | .Unauthorized => "Unauthorized"
  | .Forbidden => "Forbidden"
  | .NotFound => "NotFound"
  | .MethodNotAllowed => "Method Not Allowed"
  | .ContentTooLarge => "Content Too Large"
  | .UriTooLong => "URI Too Long"
  | .TooManyRequests => "Too Many Requests"
  | .RequestHeaderFieldsTooLarge => "Request Header Fields Too Large"
  | .InternalServerError => "Internal Server Error"
  | .NotImplemented => "Not Implemented"
  | .BadGateway => "Bad Gateway"
  | .ServiceUnavailable => "Service Unavailable"
  | .GatewayTimeout => "Gateway Timeout"

/-- Modelled from the spec: `StatusCode::status_text` is called throughout
`src/server` but is not defined under `src/`.  It supplies a response body for
a status; the spec fixes only that each status has a fixed code and reason
phrase, so the model renders those. -/
def StatusCode.status_text (s : StatusCode) : String :=
  toString s.code ++ " " ++ s.reason_phrase

/-- The I/O error kinds (`std::io::ErrorKind`) that `handle_request`
distinguishes, plus a catch-all for every other kind. -/
inductive IoKind where
  | TimedOut | UnexpectedEof | ConnectionReset | ConnectionAborted
  | BrokenPipe | OtherKind
deriving DecidableEq, Repr

/-- `src/error.rs`: the `ServerError` variants produced or matched by the
embedded code paths (the remaining variants never reach them). -/
inductive ServerError where
  | Io (kind : IoKind)
  | HttpParse (msg : String)
deriving DecidableEq, Repr

/-- `src/http/request.rs`: the `Request` struct. -/
structure Request where
  method : Method
  path : String
  version : Version
  headers : Headers
  body : List Char
deriving DecidableEq, Repr

/-- One accepted header line (already trimmed): split at the first colon,
trim the value, insert name (as received) and value; a line without a colon
is skipped. -/
def procHeaderLine (hs : Headers) (tl : List Char) : Headers :=
  match splitAtColon tl with
  | some p => hmInsert hs (String.mk p.1) (String.mk (trimL p.2))
  | none => hs

/-- The header-reading loop of `Request::from_stream`: `read_line`, trim,
stop at a blank line, otherwise process the line and continue.  The
line-by-line loop is fused with the character scan of `read_line` so that the
recursion is structural: `cur` accumulates the current line (reversed); a
`'\n'` ends a line exactly as `read_line` does; end of input yields the final
(possibly empty) line and then the loop observes an empty read and stops. -/
def readHs (hs : Headers) (cur : List Char) : List Char → Headers × List Char
  | [] => (procHeaderLine hs (trimL cur.reverse), [])
  | c :: t =>
    if c = '\n' then
      let tl := trimL cur.reverse
      if tl.isEmpty then (hs, t)
      else readHs (procHeaderLine hs tl) [] t
    else readHs hs (c :: cur) t

/-- `Request::from_stream`: read the request line, split on whitespace
(fewer than 3 tokens is a parse failure), parse method/path/version, read
headers until a blank line, then read exactly `Content-Length` body bytes
when that header is present and parses (failing when the stream is short),
else leave the body empty. -/
def Request.from_stream (input : List Char) : Except ServerError Request :=
  let rl := readLine input
  let parts := words (trimL rl.1)
  if h3 : parts.length < 3 then
    .error (.HttpParse "Invalid Http request line")
  else
    let method := methodFrom (String.mk (parts.get ⟨0, by omega⟩))
    let path := String.mk (parts.get ⟨1, by omega⟩)
    let version := versionFrom (String.mk (parts.get ⟨2, by omega⟩))
    let hp := readHs [] [] rl.2
    match hmGet hp.1 "Content-Length" with
    | some clv =>
      match parseNat64 clv with
      | some n =>
        if n ≤ hp.2.length then
          .ok ⟨method, path, version, hp.1, hp.2.take n⟩
        else
          .error (.Io .UnexpectedEof)
      | none => .ok ⟨method, path, version, hp.1, []⟩
    | none => .ok ⟨method, path, version, hp.1, []⟩

/-- Case-insensitive header scan (the loop body of `Request::get_header`). -/
def getHeaderCI (name : String) : Headers → Option String
  | [] => none
  | p :: t =>
    if strLower p.1 == strLower name then some p.2 else getHeaderCI name t

/-- `Request::get_header`: case-insensitive lookup over the stored headers. -/
def Request.get_header (r : Request) (name : String) : Option String :=
  getHeaderCI name r.headers

/-- `Request::wants_keep_alive`.  The source also carries a
`Version::HTTP1_0 => ...` arm, but the `Version` enum declares no such
variant (see claim C3): that arm names a nonexistent variant, so the catch-all
`false` is the semantics for every version other than `HTTP1_1`. -/
def Request.wants_keep_alive (r : Request) : Bool :=
  match r.version with
  | .HTTP1_1 =>
    match r.get_header "connection" with
    | some connection => !(strContains (strLower connection) "close")
    | none => true
  | _ => false

/-- `Request::keep_alive_timeout`: `Keep-Alive: timeout=N` when present and
parseable. -/
def Request.keep_alive_timeout (r : Request) : Option Nat :=
  match r.get_header "keep-alive" with
  | some ka =>
    match (splitOnComma ka).find?
        (fun part => strStarts (strTrim part) "timeout=") with
    | some part => parseNat64 (strDrop (strTrim part) 8)
    | none => none
  | none => none

/-- `Request::keep_alive_max`: `Keep-Alive: max=M` when present and
parseable. -/
def Request.keep_alive_max (r : Request) : Option Nat :=
  match r.get_header "keep-alive" with
  | some ka =>
    match (splitOnComma ka).find?
        (fun part => strStarts (strTrim part) "max=") with
    | some part => parseNat64 (strDrop (strTrim part) 4)
    | none => none
  | none => none

/-- `src/http/response.rs`: the `Response` struct. -/
structure Response where
  version : Version
  status : StatusCode
  headers : Headers
  body : List Char
deriving DecidableEq, Repr

/-- `Response::new`: HTTP/1.1, 200, default `Content-Type` and `Server`
headers, empty body. -/
def Response.new : Response :=
  ⟨.HTTP1_1, .Ok,
    [("Content-Type", "text/html"), ("Server", "Xener/0.0.1")], []⟩

/-- `Response::with_status`. -/
def Response.with_status (r : Response) (status : StatusCode) : Response :=
  { r with status := status }

/-- `Response::with_header`. -/
def Response.with_header (r : Response) (name value : String) : Response :=
  { r with headers := hmInsert r.headers name value }

/-- `Response::with_body`: sets `Content-Length` to the body length, then
stores the body. -/
def Response.with_body (r : Response) (body : List Char) : Response :=
  { r with
    headers := hmInsert r.headers "Content-Length" (toString body.length),
    body := body }

/-- `Response::with_text`. -/
def Response.with_text (r : Response) (text : String) : Response :=
  r.with_body text.data

/-- `Response::with_content_type`. -/
def Response.with_content_type (r : Response) (ct : String) : Response :=
  { r with headers := hmInsert r.headers "Content-Type" ct }

/-- Modelled from the spec: the rendered value of a `Keep-Alive` response
header (`timeout=`/`max=` parameters); the spec does not fix its format. -/
def keepAliveHeaderValue (t m : Option Nat) : String :=
  "timeout=" ++ (match t with | some n => toString n | none => "")
    ++ ", max=" ++ (match m with | some n => toString n | none => "")

/-- Modelled from the spec: `Response::with_keep_alive` is called from
`src/server/connection.rs` but not defined under `src/`.  Spec section 4.3
step 7 says to annotate the response with `Connection`/`Keep-Alive` headers
reflecting the keep-alive decision, and section 8.5 says a rejected request
gets a 400 response ending with header `Connection: close`; so with
keep-alive active the model sets `Connection: keep-alive` plus the
`Keep-Alive` parameters, and otherwise it sets `Connection: close`. -/
def Response.with_keep_alive (r : Response) (keep_alive : Bool)
    (timeout maxReq : Option Nat) : Response :=
  if keep_alive then
    { r with
      headers := hmInsert (hmInsert r.headers "Connection" "keep-alive")
        "Keep-Alive" (keepAliveHeaderValue timeout maxReq) }
  else
    { r with headers := hmInsert r.headers "Connection" "close" }

/-- Modelled from the spec: `Response::with_cache_control` is called from
`src/server/connection.rs` but not defined under `src/`.  The spec says only
to "add a cache-control header with a fixed max-age", so the model inserts a
`Cache-Control: max-age=N` header. -/
def Response.with_cache_control (r : Response) (maxAge : Nat) : Response :=
  { r with
    headers := hmInsert r.headers "Cache-Control"
      ("max-age=" ++ toString maxAge) }

/-- `Response::write_to`: the byte sequence written to the stream — status
line (version rendered via `versionToString`), each header, a blank line, the
raw body. -/
def Response.write_to (r : Response) : List Char :=
  (versionToString r.version ++ " " ++ toString r.status.code ++ " "
      ++ r.status.reason_phrase ++ "\r\n").data
    ++ r.headers.foldl
        (fun acc p => acc ++ (p.1 ++ ": " ++ p.2 ++ "\r\n").data) []
    ++ "\r\n".data
    ++ r.body

/-- `src/server/connection.rs`: the `HttpConnection` state consumed by the
claims.  The stream handle, peer address, and the time-valued fields
(`created_at`, `last_active`, `stats`) are effectful or real-time and carry
no part of the claims. -/
structure HttpConnection where
  request_count : Nat
  max_requests : Nat
  idle_timeout : Nat
deriving DecidableEq, Repr

/-- The read-error kinds `handle_request` treats as a benign close
(`TimedOut`, `UnexpectedEof`, `ConnectionReset`, `ConnectionAborted`). -/
def benign_read_error : ServerError → Bool
  | .Io .TimedOut => true
  | .Io .UnexpectedEof => true
  | .Io .ConnectionReset => true
  | .Io .ConnectionAborted => true
  | _ => false

/-- The write-error kinds `handle_request` treats as the peer being gone
(`BrokenPipe`, `ConnectionReset`, `ConnectionAborted`). -/
def peer_gone_write_error : ServerError → Bool
  | .Io .BrokenPipe => true
  | .Io .ConnectionReset => true
  | .Io .ConnectionAborted => true
  | _ => false

/-- The 400 response `handle_request` builds on a parse failure:
`Response::new().with_status(BadRequest).with_keep_alive(false, None, None)
.with_text(status_text)`. -/
def bad_request_response : Response :=
  ((Response.new.with_status .BadRequest).with_keep_alive false none none
    ).with_text (StatusCode.BadRequest.status_text)

/-- `src/server/connection.rs` lines 179–204: the response post-processing of
`handle_request` after a successful parse — keep-alive negotiation, the
cache-control condition exactly as the source parses
(`keep_alive && path.ends_with(".css") || path.ends_with(".js")`, with `&&`
binding tighter than `||`), and the HEAD body clearing. -/
def finalize_response (idle_timeout max_requests request_count : Nat)
    (request : Request) (response : Response) : Response :=
  let keep_alive := request.wants_keep_alive
  let timeout := request.keep_alive_timeout.getD idle_timeout
  let max_remaining := max_requests - request_count
  let maxReq := match request.keep_alive_max with
    | some client_max => some (min client_max max_remaining)
    | none => some max_remaining
  let is_head := request.method == Method.HEAD
  let r1 := response.with_keep_alive keep_alive (some timeout) maxReq
  let r2 :=
    if keep_alive && strEnds request.path ".css"
        || strEnds request.path ".js"
    then r1.with_cache_control 3600
    else r1
  if is_head then { r2 with body := [] } else r2

/-- `HttpConnection::handle_request`.  The effectful socket operations are
passed in as their outcomes: `read_result` is what `Request::from_stream`
produced on this connection's stream, `err_write_result` the outcome of
writing the 400 response (consulted only on a parse failure), `write_result`
the outcome of writing the main response.  The returned list holds the
responses actually written, in order. -/
def HttpConnection.handle_request (c : HttpConnection)
    (read_result : Except ServerError Request)
    (err_write_result write_result : Except ServerError Unit)
    (request_handler : Request → Response) :
    HttpConnection × List Response × Except ServerError Bool :=
  let c1 := { c with request_count := c.request_count + 1 }
  if c1.request_count > c1.max_requests then (c1, [], .ok false)
  else
    match read_result with
    | .error err =>
      if benign_read_error err then (c1, [], .ok false)
      else
        match err_write_result with
        | .ok _ => (c1, [bad_request_response], .ok false)
        | .error write_err =>
          if peer_gone_write_error write_err then (c1, [], .ok false)
          else (c1, [], .error write_err)
    | .ok request =>
      let response := finalize_response c1.idle_timeout c1.max_requests
        c1.request_count request (request_handler request)
      match write_result with
      | .ok _ => (c1, [response], .ok request.wants_keep_alive)
      | .error e => (c1, [], .error e)

/-- The per-call outcomes of one `handle_request` invocation's socket
operations, plus the handler passed to it. -/
structure CallIO where
  read_result : Except ServerError Request
  err_write_result : Except ServerError Unit
  write_result : Except ServerError Unit
  request_handler : Request → Response

/-- The connection state after a sequence of `handle_request` calls. -/
def run_connection (c : HttpConnection) : List CallIO → HttpConnection
  | [] => c
  | o :: os =>
    run_connection
      (c.handle_request o.read_result o.err_write_result o.write_result
        o.request_handler).1 os

/-- `src/server/mod.rs` lines 70–86: the admission decision of the accept
loop.  At capacity the raw socket receives the inline-built 503 response and
the count is unchanged; otherwise the count is incremented and no response is
written here. -/
def rejection_response : Response :=
  (Response.new.with_status .ServiceUnavailable).with_text
    "503 Service Unavailable - Server at capacity"

/-- One accept-loop step over the shared connection count. -/
def accept_step (count max_connections : Nat) : Nat × Option Response :=
  if count ≥ max_connections then (count, some rejection_response)
  else (count + 1, none)

/-! ## Theorems -/

/-- Claim C2 (code bug): at capacity, the accept loop rejects the connection
before building a state machine and without touching the count, but the 503
response it writes carries no `Retry-After` header at all — its headers are
exactly the `Response::new` defaults plus the `Content-Length` set by
`with_text`.  The claim (and the spec) require `Retry-After: 60`. -/
theorem c2_rejection_response_lacks_retry_after :
    accept_step 1 1 = (1, some rejection_response) ∧
    rejection_response.status = StatusCode.ServiceUnavailable ∧
    hmGet rejection_response.headers "Retry-After" = none ∧
    rejection_response.headers
      = [("Content-Type", "text/html"), ("Server", "Xener/0.0.1"),
         ("Content-Length", "44")] := by
  refine ⟨rfl, rfl, rfl, rfl⟩

/-- Claim C3 (code bug): `"HTTP/1.0"` is not a distinguished version value —
the `Version` enum has no `HTTP1_0` variant, `Version::from` sends
`"HTTP/1.0"` to `UNKNOWN`, and so an HTTP/1.0 request carrying
`Connection: keep-alive` gets `wants_keep_alive = false`, where the claim
requires `true`. -/
theorem c3_http10_keep_alive_ignored :
    versionFrom "HTTP/1.0" = Version.UNKNOWN ∧
    Request.from_stream
        "GET / HTTP/1.0\r\nConnection: keep-alive\r\n\r\n".data
      = .ok ⟨.GET, "/", .UNKNOWN, [("Connection", "keep-alive")], []⟩ ∧
    (Request.mk .GET "/" .UNKNOWN [("Connection", "keep-alive")] []
      ).wants_keep_alive = false := by
  refine ⟨rfl, rfl, rfl⟩

/-- Claim C6 (code bug): the cache-control condition is
`(keep_alive && path.ends_with(".css")) || path.ends_with(".js")` because
`&&` binds tighter than `||`, so a `.js` path receives the cache-control
header even when keep-alive is inactive — here on a request whose version
parses to `UNKNOWN`, for which `wants_keep_alive` is `false`. -/
theorem c6_cache_control_added_without_keep_alive :
    (Request.mk .GET "/app.js" .UNKNOWN [] []).wants_keep_alive = false ∧
    hmGet (finalize_response 30 1000 1 (Request.mk .GET "/app.js" .UNKNOWN [] [])
        (Response.new.with_text "hi")).headers "Cache-Control"
      = some "max-age=3600" := by
  refine ⟨rfl, by decide⟩

/-- Claim C8 (code bug): the status table does cover exactly the 22 listed
codes, but `reason_phrase` for the 404 variant returns the string
`"NotFound"`, not the canonical `"Not Found"` the claim states. -/
theorem c8_not_found_reason_phrase :
    (∀ s : StatusCode,
      s ∈ [StatusCode.Ok, .Created, .Accepted, .NoContent, .MovedPermanently,
        .Found, .TemporaryRedirect, .PermanentRedirect, .BadRequest,
        .Unauthorized, .Forbidden, .NotFound, .MethodNotAllowed,
        .ContentTooLarge, .UriTooLong, .TooManyRequests,
        .RequestHeaderFieldsTooLarge, .InternalServerError, .NotImplemented,
        .BadGateway, .ServiceUnavailable, .GatewayTimeout]) ∧
    [StatusCode.Ok, .Created, .Accepted, .NoContent, .MovedPermanently,
        .Found, .TemporaryRedirect, .PermanentRedirect, .BadRequest,
        .Unauthorized, .Forbidden, .NotFound, .MethodNotAllowed,
        .ContentTooLarge, .UriTooLong, .TooManyRequests,
        .RequestHeaderFieldsTooLarge, .InternalServerError, .NotImplemented,
        .BadGateway, .ServiceUnavailable, .GatewayTimeout].map StatusCode.code
      = [200, 201, 202, 204, 301, 302, 307, 308, 400, 401, 403, 404, 405,
         413, 414, 429, 431, 500, 501, 502, 503, 504] ∧
    StatusCode.code .NotFound = 404 ∧
    StatusCode.reason_phrase .NotFound = "NotFound" ∧
    StatusCode.reason_phrase .NotFound ≠ "Not Found" := by
  refine ⟨?_, rfl, rfl, rfl, by decide⟩
  intro s
  cases s <;> simp

/-- Claim C1, counterexample: `handle_request` increments `request_count`
before the quota check, so with `max_requests = 1` the second call drives
`request_count` to `2 > 1` — the field does exceed the quota (while that
second call indeed writes nothing and returns `false`). -/
theorem c1_request_count_exceeds_quota_cex :
    (run_connection ⟨0, 1, 30⟩
        [⟨.ok ⟨.GET, "/", .HTTP1_1, [], []⟩, .ok (), .ok (),
            fun _ => Response.new⟩,
         ⟨.ok ⟨.GET, "/", .HTTP1_1, [], []⟩, .ok (), .ok (),
            fun _ => Response.new⟩]).request_count = 2 ∧
    ¬ (run_connection ⟨0, 1, 30⟩
        [⟨.ok ⟨.GET, "/", .HTTP1_1, [], []⟩, .ok (), .ok (),
            fun _ => Response.new⟩,
         ⟨.ok ⟨.GET, "/", .HTTP1_1, [], []⟩, .ok (), .ok (),
            fun _ => Response.new⟩]).request_count ≤ 1 ∧
    (HttpConnection.handle_request ⟨1, 1, 30⟩
        (.ok ⟨.GET, "/", .HTTP1_1, [], []⟩) (.ok ()) (.ok ())
        (fun _ => Response.new)).2 = ([], .ok false) := by
  refine ⟨rfl, by decide, rfl⟩

/-- Claim C10 (confirmed): `Version`'s string conversion maps every variant
other than `HTTP2_0` to `"HTTP/1.1"`, and the serialized output of
`write_to` always begins with `"HTTP/1.1"` or `"HTTP/2.0"`. -/
theorem c10_version_string_default :
    (∀ r : Response, r.version ≠ Version.HTTP2_0 →
      versionToString r.version = "HTTP/1.1") ∧
    (∀ r : Response, ∃ rest,
      r.write_to = "HTTP/1.1".data ++ rest ∨
      r.write_to = "HTTP/2.0".data ++ rest) := by
  constructor
  · intro r h
    cases hv : r.version
    · rfl
    · exact absurd hv h
    · rfl
  · intro r
    cases hv : r.version
    · exact ⟨_, Or.inl (by
        simp only [Response.write_to, hv, versionToString, String.data_append,
          List.append_assoc]; rfl)⟩
    · exact ⟨_, Or.inr (by
        simp only [Response.write_to, hv, versionToString, String.data_append,
          List.append_assoc]; rfl)⟩
    · exact ⟨_, Or.inl (by
        simp only [Response.write_to, hv, versionToString, String.data_append,
          List.append_assoc]; rfl)⟩

/-- Concrete instance of C10: an `UNKNOWN`-version response stringifies its
version as `"HTTP/1.1"`. -/
theorem c10_witness :
    versionToString Version.UNKNOWN = "HTTP/1.1" :=
  c10_version_string_default.1 ⟨.UNKNOWN, .Ok, [], []⟩ (by decide)

/-- Claim C4 (confirmed): on a parse failure, a benign read error (timeout,
EOF, reset, abort) yields `Ok false` with nothing written; any other error
yields a best-effort 400 response that carries `Connection: close` —
`Ok false` when the write succeeds, `Ok false` when the write fails with a
peer-gone kind (broken pipe, reset, abort), and the write error itself
otherwise. -/
theorem c4_parse_failure_dispatch :
    ∀ (c : HttpConnection) (e : ServerError)
      (w400 wm : Except ServerError Unit) (h : Request → Response),
      c.request_count < c.max_requests →
      ((benign_read_error e = true →
        c.handle_request (.error e) w400 wm h
          = ({ c with request_count := c.request_count + 1 }, [], .ok false)) ∧
       (benign_read_error e = false →
        hmGet bad_request_response.headers "Connection" = some "close" ∧
        bad_request_response.status = .BadRequest ∧
        (w400 = .ok () →
          c.handle_request (.error e) w400 wm h
            = ({ c with request_count := c.request_count + 1 },
               [bad_request_response], .ok false)) ∧
        (∀ e', w400 = .error e' → peer_gone_write_error e' = true →
          c.handle_request (.error e) w400 wm h
            = ({ c with request_count := c.request_count + 1 }, [],
               .ok false)) ∧
        (∀ e', w400 = .error e' → peer_gone_write_error e' = false →
          c.handle_request (.error e) w400 wm h
            = ({ c with request_count := c.request_count + 1 }, [],
               .error e')))) := by
  intro c e w400 wm h hq
  have hnq : ¬ c.request_count + 1 > c.max_requests := by omega
  constructor
  · intro hb
    simp [HttpConnection.handle_request, hnq, hb]
  · intro hb
    refine ⟨rfl, rfl, ?_, ?_, ?_⟩
    · intro hw; subst hw
      simp [HttpConnection.handle_request, hnq, hb]
    · intro e' hw hpg; subst hw
      simp [HttpConnection.handle_request, hnq, hb, hpg]
    · intro e' hw hpg; subst hw
      simp [HttpConnection.handle_request, hnq, hb, hpg]

/-- Concrete instance of C4: an `HttpParse` error with a successful error
write yields the 400 response and `Ok false`. -/
theorem c4_witness :
    HttpConnection.handle_request ⟨0, 1, 30⟩ (.error (.HttpParse "bad"))
        (.ok ()) (.ok ()) (fun _ => Response.new)
      = (⟨1, 1, 30⟩, [bad_request_response], .ok false) :=
  ((c4_parse_failure_dispatch ⟨0, 1, 30⟩ (.HttpParse "bad") (.ok ()) (.ok ())
      (fun _ => Response.new) (by decide)).2 (by decide)).2.2.1 rfl

/-- Lookup after insert: the inserted key reads back its value; every other
key is untouched. -/
theorem hmGet_hmInsert (hs : Headers) (k v k' : String) :
    hmGet (hmInsert hs k v) k' = if k' = k then some v else hmGet hs k' := by
  induction hs with
  | nil =>
    simp only [hmInsert, hmGet, beq_iff_eq]
    exact if_congr eq_comm rfl rfl
  | cons p t ih =>
    by_cases hp : p.1 = k
    · simp only [hmInsert, beq_iff_eq, if_pos hp, hmGet]
      by_cases hkk : k' = k
      · subst hkk; simp
      · rw [if_neg (fun h : k = k' => hkk h.symm), if_neg hkk,
          if_neg (fun h : p.1 = k' => hkk (h.symm.trans hp))]
    · simp only [hmInsert, beq_iff_eq, if_neg hp, hmGet, ih]
      by_cases hpk : p.1 = k'
      · have hkk : ¬ k' = k := fun h => hp (hpk.trans h)
        rw [if_pos hpk, if_neg hkk, if_pos hpk]
      · rw [if_neg hpk, if_neg hpk]

/-- `with_keep_alive` never changes the body. -/
theorem with_keep_alive_body (r : Response) (ka : Bool) (t m : Option Nat) :
    (r.with_keep_alive ka t m).body = r.body := by
  cases ka <;> simp [Response.with_keep_alive]

/-- `with_keep_alive` touches only the `Connection` and `Keep-Alive`
headers. -/
theorem hmGet_with_keep_alive (r : Response) (ka : Bool) (t m : Option Nat)
    (k : String) (h1 : k ≠ "Connection") (h2 : k ≠ "Keep-Alive") :
    hmGet (r.with_keep_alive ka t m).headers k = hmGet r.headers k := by
  cases ka <;> simp [Response.with_keep_alive, hmGet_hmInsert, h1, h2]

/-- `with_cache_control` touches only the `Cache-Control` header. -/
theorem hmGet_with_cache_control (r : Response) (n : Nat) (k : String)
    (h : k ≠ "Cache-Control") :
    hmGet (r.with_cache_control n).headers k = hmGet r.headers k := by
  simp [Response.with_cache_control, hmGet_hmInsert, h]

/-- The response post-processing of `handle_request` adds only
`Connection`, `Keep-Alive` and `Cache-Control` headers (and possibly clears
the body): every other header reads exactly as the handler left it. -/
theorem finalize_response_headers_lookup (idle maxr cnt : Nat)
    (req : Request) (resp : Response) (k : String)
    (h1 : k ≠ "Connection") (h2 : k ≠ "Keep-Alive")
    (h3 : k ≠ "Cache-Control") :
    hmGet (finalize_response idle maxr cnt req resp).headers k
      = hmGet resp.headers k := by
  simp only [finalize_response]
  split
  · split
    · rw [hmGet_with_cache_control _ _ _ h3, hmGet_with_keep_alive _ _ _ _ _ h1 h2]
    · rw [hmGet_with_keep_alive _ _ _ _ _ h1 h2]
  · split
    · rw [hmGet_with_cache_control _ _ _ h3, hmGet_with_keep_alive _ _ _ _ _ h1 h2]
    · rw [hmGet_with_keep_alive _ _ _ _ _ h1 h2]

/-- Claim C7 (confirmed): for a HEAD request the finalized response has an
empty body while its `Content-Length` header still reads the length of the
body the handler produced via `with_body`, and its headers are identical to
those of the finalized response for the same request with method GET. -/
theorem c7_head_empty_body_full_content_length :
    ∀ (idle maxr cnt : Nat) (req : Request) (r : Response) (b : List Char),
      req.method = .HEAD →
      (finalize_response idle maxr cnt req (r.with_body b)).body = [] ∧
      hmGet (finalize_response idle maxr cnt req (r.with_body b)).headers
          "Content-Length" = some (toString b.length) ∧
      (finalize_response idle maxr cnt req (r.with_body b)).headers
        = (finalize_response idle maxr cnt { req with method := Method.GET }
            (r.with_body b)).headers := by
  intro idle maxr cnt req r b hm
  obtain ⟨m, p, v, hs, bd⟩ := req
  simp only [Request.method] at hm
  subst hm
  refine ⟨rfl, ?_, rfl⟩
  rw [finalize_response_headers_lookup _ _ _ _ _ _ (by decide) (by decide)
    (by decide)]
  simp [Response.with_body, hmGet_hmInsert]

/-- Concrete instance of C7: a HEAD request for a 5-byte resource. -/
theorem c7_witness :
    (finalize_response 30 5 1 ⟨.HEAD, "/x", .HTTP1_1, [], []⟩
        (Response.new.with_body "Hello".data)).body = [] ∧
    hmGet (finalize_response 30 5 1 ⟨.HEAD, "/x", .HTTP1_1, [], []⟩
        (Response.new.with_body "Hello".data)).headers "Content-Length"
      = some "5" :=
  ⟨(c7_head_empty_body_full_content_length 30 5 1
      ⟨.HEAD, "/x", .HTTP1_1, [], []⟩ Response.new "Hello".data rfl).1,
   (c7_head_empty_body_full_content_length 30 5 1
      ⟨.HEAD, "/x", .HTTP1_1, [], []⟩ Response.new "Hello".data rfl).2.1⟩

/-- A line without a colon is not split. -/
theorem splitAtColon_eq_none_of_not_mem (l : List Char) (h : ':' ∉ l) :
    splitAtColon l = none := by
  induction l with
  | nil => rfl
  | cons c t ih =>
    have hc : ¬ c = ':' := fun e => h (List.mem_cons.mpr (Or.inl e.symm))
    have ht : ':' ∉ t := fun m => h (List.mem_cons_of_mem c m)
    simp only [splitAtColon, if_neg hc, ih ht]

/-- The header loop consumes one full line at a time: reading from
`line ++ '\n' :: rest` with accumulator `cur` either stops (blank line) or
processes the trimmed line and continues on `rest`. -/
theorem readHs_consume :
    ∀ (line : List Char), '\n' ∉ line →
      ∀ (hs : Headers) (cur rest : List Char),
        readHs hs cur (line ++ '\n' :: rest) =
          if (trimL (cur.reverse ++ line)).isEmpty then (hs, rest)
          else readHs (procHeaderLine hs (trimL (cur.reverse ++ line))) []
            rest := by
  intro line
  induction line with
  | nil =>
    intro _ hs cur rest
    simp [readHs]
  | cons a t ih =>
    intro h hs cur rest
    have ha : ¬ a = '\n' := fun e => h (List.mem_cons.mpr (Or.inl e.symm))
    have ht : '\n' ∉ t := fun m => h (List.mem_cons_of_mem a m)
    simp only [List.cons_append, readHs]
    rw [if_neg ha]
    simp only [List.append_eq]
    rw [ih ht hs (a :: cur) rest]
    simp [List.reverse_cons, List.append_assoc]

/-- Claim C9 (confirmed): a non-blank header line containing no colon is
silently skipped — the header map and the rest of the parse are exactly as if
the line were absent — and in the pure stream model the only parse failures
are a request line with fewer than three tokens and a stream that ends before
`Content-Length` bytes of body. -/
theorem c9_colonless_header_skipped :
    (∀ (hs : Headers) (line rest : List Char),
      '\n' ∉ line → trimL line ≠ [] → ':' ∉ trimL line →
      readHs hs [] (line ++ '\n' :: rest) = readHs hs [] rest) ∧
    (∀ (input : List Char) (e : ServerError),
      Request.from_stream input = .error e →
      e = .HttpParse "Invalid Http request line" ∨
      e = .Io .UnexpectedEof) := by
  constructor
  · intro hs line rest hnl hne hnc
    rw [readHs_consume line hnl hs [] rest]
    simp only [List.reverse_nil, List.nil_append]
    rw [if_neg (by simpa using hne)]
    simp only [procHeaderLine, splitAtColon_eq_none_of_not_mem _ hnc]
  · intro input e h
    simp only [Request.from_stream] at h
    split at h
    · simp only [Except.error.injEq] at h
      exact Or.inl h.symm
    · split at h
      · split at h
        · split at h
          · simp at h
          · simp only [Except.error.injEq] at h
            exact Or.inr h.symm
        · simp at h
      · simp at h

/-- Concrete instance of C9: the colon-free line `xgarbagex` inside a header
section contributes nothing, and a one-token request line fails with the
request-line parse error. -/
theorem c9_witness :
    readHs [] [] ("xgarbagex".data ++ '\n' :: "\n".data)
      = readHs [] [] "\n".data ∧
    (ServerError.HttpParse "Invalid Http request line"
        = .HttpParse "Invalid Http request line" ∨
      ServerError.HttpParse "Invalid Http request line"
        = .Io .UnexpectedEof) :=
  ⟨c9_colonless_header_skipped.1 [] "xgarbagex".data "\n".data (by decide)
      (by decide) (by decide),
   c9_colonless_header_skipped.2 "GET\r\n".data
      (.HttpParse "Invalid Http request line") rfl⟩

/-- Claim C5 (confirmed): whenever `from_stream` succeeds, the body is
exactly the first `N` bytes of the stream remainder after the headers when
the `Content-Length` header is present and parses to `N` (and the parse
fails with `UnexpectedEof` when fewer than `N` bytes remain), and the body
is empty in every other case. -/
theorem c5_body_matches_content_length :
    (∀ (input : List Char) (req : Request) (n : Nat),
      Request.from_stream input = .ok req →
      (hmGet req.headers "Content-Length").bind parseNat64 = some n →
      req.body = (readHs [] [] (readLine input).2).2.take n ∧
      req.body.length = n) ∧
    (∀ (input : List Char) (req : Request),
      Request.from_stream input = .ok req →
      (hmGet req.headers "Content-Length").bind parseNat64 = none →
      req.body = []) ∧
    (∀ (input : List Char) (v : String) (n : Nat),
      ¬ (words (trimL (readLine input).1)).length < 3 →
      hmGet (readHs [] [] (readLine input).2).1 "Content-Length" = some v →
      parseNat64 v = some n →
      (readHs [] [] (readLine input).2).2.length < n →
      Request.from_stream input = .error (.Io .UnexpectedEof)) := by
  refine ⟨?_, ?_, ?_⟩
  · intro input req n h hbind
    simp only [Request.from_stream] at h
    split at h
    · simp at h
    · split at h
      · split at h
        · split at h
          · simp only [Except.ok.injEq] at h
            subst h
            simp_all only [Option.bind_eq_bind, Option.some_bind,
              Option.some.injEq]
            subst hbind
            refine ⟨?_, ?_⟩
            · first
              | rfl
              | trivial
            · simp only [List.length_take]
              omega
          · simp at h
        · simp only [Except.ok.injEq] at h
          subst h
          simp_all
      · simp only [Except.ok.injEq] at h
        subst h
        simp_all
  · intro input req h hbind
    simp only [Request.from_stream] at h
    split at h
    · simp at h
    · split at h
      · split at h
        · split at h
          · simp only [Except.ok.injEq] at h
            subst h
            simp_all
          · simp at h
        · simp only [Except.ok.injEq] at h
          subst h
          rfl
      · simp only [Except.ok.injEq] at h
        subst h
        rfl
  · intro input v n h3 hcl hn hlen
    simp only [Request.from_stream]
    rw [dif_neg h3]
    simp only [hcl, hn]
    rw [if_neg (by omega)]

/-- Concrete instance of C5: the repository's own unit-test request reads a
5-byte body. -/
theorem c5_witness :
    ("Hello".data
        = (readHs [] []
            (readLine
              "GET /test HTTP/1.1\r\nContent-Length: 5\r\n\r\nHello".data).2
          ).2.take 5 ∧
      "Hello".data.length = 5) :=
  c5_body_matches_content_length.1
    "GET /test HTTP/1.1\r\nContent-Length: 5\r\n\r\nHello".data
    ⟨.GET, "/test", .HTTP1_1, [("Content-Length", "5")], "Hello".data⟩ 5
    rfl rfl

/-- Each `handle_request` call advances `request_count` by exactly one and
leaves the quota unchanged. -/
theorem handle_request_count_succ (c : HttpConnection)
    (rr : Except ServerError Request) (w1 w2 : Except ServerError Unit)
    (h : Request → Response) :
    (c.handle_request rr w1 w2 h).1.request_count = c.request_count + 1 ∧
    (c.handle_request rr w1 w2 h).1.max_requests = c.max_requests := by
  simp only [HttpConnection.handle_request]
  repeat' split
  all_goals exact ⟨rfl, rfl⟩

/-- Claim C1, amended (corrected): `request_count` grows by exactly one per
call (hence is monotonically non-decreasing across any call sequence); every
call that writes anything ends with `request_count ≤ max_requests`; and a
call arriving with the quota already used up increments `request_count` past
`max_requests` but returns `false` without writing any response. -/
theorem c1_request_count_monotone_amended :
    (∀ (c : HttpConnection) (rr : Except ServerError Request)
       (w1 w2 : Except ServerError Unit) (h : Request → Response),
      (c.handle_request rr w1 w2 h).1.request_count = c.request_count + 1) ∧
    (∀ (c : HttpConnection) (os : List CallIO),
      c.request_count ≤ (run_connection c os).request_count) ∧
    (∀ (c : HttpConnection) (rr : Except ServerError Request)
       (w1 w2 : Except ServerError Unit) (h : Request → Response),
      (c.handle_request rr w1 w2 h).2.1 ≠ [] →
      (c.handle_request rr w1 w2 h).1.request_count ≤ c.max_requests) ∧
    (∀ (c : HttpConnection) (rr : Except ServerError Request)
       (w1 w2 : Except ServerError Unit) (h : Request → Response),
      c.max_requests ≤ c.request_count →
      c.handle_request rr w1 w2 h
        = ({ c with request_count := c.request_count + 1 }, [],
           .ok false)) := by
  refine ⟨?_, ?_, ?_, ?_⟩
  · intro c rr w1 w2 h
    exact (handle_request_count_succ c rr w1 w2 h).1
  · intro c os
    induction os generalizing c with
    | nil => exact Nat.le_refl _
    | cons o os ih =>
      simp only [run_connection]
      have h1 : c.request_count
          ≤ (c.handle_request o.read_result o.err_write_result o.write_result
              o.request_handler).1.request_count := by
        rw [(handle_request_count_succ c o.read_result o.err_write_result
          o.write_result o.request_handler).1]
        exact Nat.le_succ _
      exact le_trans h1 (ih _)
  · intro c rr w1 w2 h hw
    by_cases hq : c.request_count + 1 > c.max_requests
    · exact absurd (by simp [HttpConnection.handle_request, hq]) hw
    · rw [(handle_request_count_succ c rr w1 w2 h).1]
      omega
  · intro c rr w1 w2 h hq
    have hgt : c.request_count + 1 > c.max_requests := by omega
    simp [HttpConnection.handle_request, hgt]

/-- Concrete instance of the amended C1: an over-quota call increments the
count past the quota, writes nothing, and returns `false`. -/
theorem c1_witness :
    HttpConnection.handle_request ⟨1, 1, 30⟩ (.error (.Io .TimedOut))
        (.ok ()) (.ok ()) (fun _ => Response.new)
      = (⟨2, 1, 30⟩, [], .ok false) :=
  c1_request_count_monotone_amended.2.2.2 ⟨1, 1, 30⟩ (.error (.Io .TimedOut))
    (.ok ()) (.ok ()) (fun _ => Response.new) (by decide)

end Xener
